import Mathlib

/-!
Verification of the YaSwag annotation-driven OpenAPI documentation builder
(repository `fathurrohman26/yaswag`, package `internal/parser` plus
`pkg/openapi/schema.go`).

The Go parser walks source declarations, folds annotation records into a
mutable `SpecData` accumulator and assembles an OpenAPI document.  This file
is a shallow embedding of that code:

* Go maps are modelled as association lists (`alookup` / `ainsert`) with
  overwrite-on-insert semantics;
* the recursive `openapi.Schema` struct is modelled as an inductive type with
  explicit projections and setters (Lean structures cannot be recursive);
* the annotation mini-language lexer (`AnnotationParser`, the `Get*`
  accessors and `parseValue`) is not part of the sources under verification —
  only its callers are; per the specification it turns comment text into
  typed annotation records, so functions here take the already-parsed
  `Annotation` records as input, and parsed example values are modelled as an
  opaque wrapper of the raw token;
* the `pkg/openapi` struct declarations other than `Schema` (`Parameter`,
  `PathItem`, `Document`, security types, …) are likewise not under the
  verified sources; they are plain data declarations modelled from their use
  sites, restricted to the fields the parser populates, with Go zero values
  as defaults.
-/

namespace YaSwag

/-! ## Association lists modelling Go maps -/

/-- Lookup in an association list (Go `m[k]`, returning `none` for a missing
key). -/
def alookup {α : Type} : List (String × α) → String → Option α
  | [], _ => none
  | (k, v) :: rest, n => if k = n then some v else alookup rest n

/-- Insert into an association list (Go `m[k] = v`): overwrites the first
binding of the key, otherwise appends. -/
def ainsert {α : Type} : List (String × α) → String → α → List (String × α)
  | [], k, v => [(k, v)]
  | (k', v') :: rest, k, v =>
      if k' = k then (k, v) :: rest else (k', v') :: ainsert rest k v

@[simp] theorem alookup_nil {α : Type} (n : String) :
    alookup ([] : List (String × α)) n = none := rfl

@[simp] theorem alookup_cons {α : Type} (k : String) (v : α) (rest : List (String × α))
    (n : String) :
    alookup ((k, v) :: rest) n = if k = n then some v else alookup rest n := rfl

@[simp] theorem alookup_ainsert_self {α : Type} (l : List (String × α)) (k : String) (v : α) :
    alookup (ainsert l k v) k = some v := by
  induction l with
  | nil => simp [ainsert, alookup]
  | cons p rest ih =>
      obtain ⟨k', v'⟩ := p
      by_cases h : k' = k <;> simp [ainsert, alookup, h, ih]

theorem alookup_ainsert_ne {α : Type} (l : List (String × α)) (k : String) (v : α)
    (n : String) (h : n ≠ k) : alookup (ainsert l k v) n = alookup l n := by
  have hkn : ¬k = n := fun hh => h hh.symm
  induction l with
  | nil => simp [ainsert, alookup, hkn]
  | cons p rest ih =>
      obtain ⟨k', v'⟩ := p
      by_cases hk : k' = k
      · subst hk
        simp [ainsert, alookup, hkn]
      · simp [ainsert, alookup, hk, ih]

theorem mem_keys_ainsert {α : Type} (l : List (String × α)) (k : String) (v : α)
    (m : String) :
    m ∈ (ainsert l k v).map Prod.fst ↔ m = k ∨ m ∈ l.map Prod.fst := by
  induction l with
  | nil => simp [ainsert]
  | cons p rest ih =>
      obtain ⟨k', v'⟩ := p
      by_cases hk : k' = k
      · subst hk; simp [ainsert]
      · simp only [ainsert, if_neg hk, List.map_cons, List.mem_cons, ih]
        tauto

theorem keys_nodup_ainsert {α : Type} (l : List (String × α)) (k : String) (v : α)
    (h : (l.map Prod.fst).Nodup) : ((ainsert l k v).map Prod.fst).Nodup := by
  induction l with
  | nil => simp [ainsert]
  | cons p rest ih =>
      obtain ⟨k', v'⟩ := p
      simp only [List.map_cons, List.nodup_cons] at h
      by_cases hk : k' = k
      · subst hk
        simpa [ainsert] using h
      · simp only [ainsert, if_neg hk, List.map_cons, List.nodup_cons]
        constructor
        · intro hmem
          rcases (mem_keys_ainsert rest k v k').mp hmem with h1 | h2
          · exact hk h1
          · exact h.1 h2
        · exact ih h.2

/-! ## Go string helpers (`strings.HasPrefix` / `TrimPrefix` / suffix
variants / `Contains`), written over the underlying character lists.  The
names avoid the Go spellings for Lean syntactic reasons. -/

/-- Go `strings.HasPrefix(s, pre)`. -/
def goHasPre (s pre : String) : Bool := pre.data.isPrefixOf s.data

/-- Go `strings.TrimPrefix(s, pre)`. -/
def goTrimPre (s pre : String) : String :=
  if goHasPre s pre then ⟨s.data.drop pre.data.length⟩ else s

/-- Go `strings.HasSuffix(s, suf)`. -/
def goHasSuf (s suf : String) : Bool := suf.data.isSuffixOf s.data

/-- Go `strings.TrimSuffix(s, suf)`. -/
def goTrimSuf (s suf : String) : String :=
  if goHasSuf s suf then ⟨s.data.take (s.data.length - suf.data.length)⟩ else s

/-- Go `strings.Contains(s, sub)`. -/
def goContains (s sub : String) : Bool := decide (sub.data <:+: s.data)

/-! ## Example values

The annotation mini-language's value parser (`parseValue`) is not among the
verified sources (only its callers are).  Modelled from the spec: a parsed
example value is an opaque datum derived from the raw annotation token. -/

/-- An example/default value (Go `any`).  Modelled from the spec: the core
only stores values produced by the lexer's `parseValue`, so one constructor
wrapping the raw token suffices. -/
inductive Value where
  | parsed (raw : String) : Value
deriving DecidableEq, Repr

/-- Modelled from the spec: `parseValue` (annotation lexer, not under the
verified sources) turns an annotation value token into a datum. -/
def parseValue (s : String) : Value := Value.parsed s

/-- `parseDefaultValue` (parser.go): empty token means no default. -/
def parseDefaultValue (value : String) : Option Value :=
  if value = "" then none else some (parseValue value)

/-! ## The schema node (`pkg/openapi/schema.go`, `Schema`)

Restricted to the fields the annotation parser populates.  The Go struct is
recursive, so the model is an inductive type with hand-written projections
and setters; Go zero values play the role of absent fields. -/

/-- `openapi.Schema`, fields in source order: `$ref`, `type`, `format`,
`description`, `nullable`, `example`, `items`, `additionalProperties`,
`properties`, `required`. -/
inductive Schema where
  | mk (Ref : String) (type : List String) (Format : String) (Description : String)
      (Nullable : Bool) (Example : Option Value) (Items : Option Schema)
      (AdditionalProperties : Option Schema) (Properties : List (String × Schema))
      (Required : List String) : Schema

def Schema.Ref : Schema → String
  | .mk r _ _ _ _ _ _ _ _ _ => r

def Schema.type : Schema → List String
  | .mk _ t _ _ _ _ _ _ _ _ => t

def Schema.Format : Schema → String
  | .mk _ _ f _ _ _ _ _ _ _ => f

def Schema.Description : Schema → String
  | .mk _ _ _ d _ _ _ _ _ _ => d

def Schema.Nullable : Schema → Bool
  | .mk _ _ _ _ n _ _ _ _ _ => n

def Schema.Example : Schema → Option Value
  | .mk _ _ _ _ _ e _ _ _ _ => e

def Schema.Items : Schema → Option Schema
  | .mk _ _ _ _ _ _ i _ _ _ => i

def Schema.AdditionalProperties : Schema → Option Schema
  | .mk _ _ _ _ _ _ _ a _ _ => a

def Schema.Properties : Schema → List (String × Schema)
  | .mk _ _ _ _ _ _ _ _ p _ => p

def Schema.Required : Schema → List String
  | .mk _ _ _ _ _ _ _ _ _ q => q

/-- The Go zero value `openapi.Schema{}`. -/
def Schema.empty : Schema := .mk "" [] "" "" false none none none [] []

def Schema.setDescription : Schema → String → Schema
  | .mk r t f _ n e i a p q, d => .mk r t f d n e i a p q

def Schema.setNullable : Schema → Bool → Schema
  | .mk r t f d _ e i a p q, n => .mk r t f d n e i a p q

def Schema.setExample : Schema → Option Value → Schema
  | .mk r t f d n _ i a p q, e => .mk r t f d n e i a p q

def Schema.setProperties : Schema → List (String × Schema) → Schema
  | .mk r t f d n e i a _ q, p => .mk r t f d n e i a p q

def Schema.setRequired : Schema → List String → Schema
  | .mk r t f d n e i a p _, q => .mk r t f d n e i a p q

section SchemaSimp

variable (r : String) (t : List String) (f d : String) (n : Bool) (e : Option Value)
variable (i a : Option Schema) (p : List (String × Schema)) (q : List String) (s : Schema)

@[simp] theorem Schema.Ref_mk : (Schema.mk r t f d n e i a p q).Ref = r := rfl

@[simp] theorem Schema.type_mk : (Schema.mk r t f d n e i a p q).type = t := rfl

@[simp] theorem Schema.Format_mk : (Schema.mk r t f d n e i a p q).Format = f := rfl

@[simp] theorem Schema.Description_mk : (Schema.mk r t f d n e i a p q).Description = d := rfl

@[simp] theorem Schema.Nullable_mk : (Schema.mk r t f d n e i a p q).Nullable = n := rfl

@[simp] theorem Schema.Example_mk : (Schema.mk r t f d n e i a p q).Example = e := rfl

@[simp] theorem Schema.Items_mk : (Schema.mk r t f d n e i a p q).Items = i := rfl

@[simp] theorem Schema.AdditionalProperties_mk :
    (Schema.mk r t f d n e i a p q).AdditionalProperties = a := rfl

@[simp] theorem Schema.Properties_mk : (Schema.mk r t f d n e i a p q).Properties = p := rfl

@[simp] theorem Schema.Required_mk : (Schema.mk r t f d n e i a p q).Required = q := rfl

@[simp] theorem Schema.Ref_setDescription : (s.setDescription d).Ref = s.Ref := by
  cases s; rfl

@[simp] theorem Schema.type_setDescription : (s.setDescription d).type = s.type := by
  cases s; rfl

@[simp] theorem Schema.Format_setDescription : (s.setDescription d).Format = s.Format := by
  cases s; rfl

@[simp] theorem Schema.Nullable_setDescription :
    (s.setDescription d).Nullable = s.Nullable := by
  cases s; rfl

@[simp] theorem Schema.Items_setDescription : (s.setDescription d).Items = s.Items := by
  cases s; rfl

@[simp] theorem Schema.AdditionalProperties_setDescription :
    (s.setDescription d).AdditionalProperties = s.AdditionalProperties := by
  cases s; rfl

@[simp] theorem Schema.Properties_setDescription :
    (s.setDescription d).Properties = s.Properties := by
  cases s; rfl

@[simp] theorem Schema.Required_setDescription :
    (s.setDescription d).Required = s.Required := by
  cases s; rfl

@[simp] theorem Schema.Description_setDescription :
    (s.setDescription d).Description = d := by
  cases s; rfl

@[simp] theorem Schema.Ref_setNullable : (s.setNullable n).Ref = s.Ref := by
  cases s; rfl

@[simp] theorem Schema.type_setNullable : (s.setNullable n).type = s.type := by
  cases s; rfl

@[simp] theorem Schema.Format_setNullable : (s.setNullable n).Format = s.Format := by
  cases s; rfl

@[simp] theorem Schema.Description_setNullable :
    (s.setNullable n).Description = s.Description := by
  cases s; rfl

@[simp] theorem Schema.Nullable_setNullable : (s.setNullable n).Nullable = n := by
  cases s; rfl

@[simp] theorem Schema.Example_setNullable : (s.setNullable n).Example = s.Example := by
  cases s; rfl

@[simp] theorem Schema.Items_setNullable : (s.setNullable n).Items = s.Items := by
  cases s; rfl

@[simp] theorem Schema.AdditionalProperties_setNullable :
    (s.setNullable n).AdditionalProperties = s.AdditionalProperties := by
  cases s; rfl

@[simp] theorem Schema.Properties_setNullable : (s.setNullable n).Properties = s.Properties := by
  cases s; rfl

@[simp] theorem Schema.Required_setNullable : (s.setNullable n).Required = s.Required := by
  cases s; rfl

@[simp] theorem Schema.Properties_setRequired : (s.setRequired q).Properties = s.Properties := by
  cases s; rfl

@[simp] theorem Schema.Required_setRequired : (s.setRequired q).Required = q := by
  cases s; rfl

@[simp] theorem Schema.Properties_setProperties : (s.setProperties p).Properties = p := by
  cases s; rfl

@[simp] theorem Schema.Required_setProperties : (s.setProperties p).Required = s.Required := by
  cases s; rfl

end SchemaSimp

/-- `openapi.NewSchemaType`: a single base type (`SchemaType` is a string
list). -/
def NewSchemaType (t : String) : List String := [t]

/-- Schema type constants (`pkg/openapi/schema.go`). -/
def TypeString : String := "string"

def TypeNumber : String := "number"

def TypeInteger : String := "integer"

def TypeBoolean : String := "boolean"

def TypeArray : String := "array"

def TypeObject : String := "object"

/-- `openapi.RefTo`: a reference schema to a component schema. -/
def RefTo (name : String) : Schema :=
  .mk ("#/components/schemas/" ++ name) [] "" "" false none none none [] []

/-- Helper for the Go literal `&openapi.Schema{Type: NewSchemaType(t), Format: f}`. -/
def typeFormatSchema (t f : String) : Schema :=
  .mk "" (NewSchemaType t) f "" false none none none [] []

/-- Helper for the Go literal
`&openapi.Schema{Type: NewSchemaType(TypeArray), Items: items}`. -/
def arraySchemaWith (items : Option Schema) : Schema :=
  .mk "" (NewSchemaType TypeArray) "" "" false none items none [] []

/-! ## The type resolver (`internal/parser`, `typeSchemaMapping`,
`typeToSchema`, `astTypeToSchema` and friends) -/

/-- `schemaTypeInfo`: OpenAPI schema type and format. -/
structure schemaTypeInfo where
  schemaType : String
  format : String
deriving DecidableEq, Repr

/-- `typeSchemaMapping`: the fixed Go-type → OpenAPI type/format table, entry
for entry as in the source map literal. -/
def typeSchemaMapping : List (String × schemaTypeInfo) :=
  [("string", ⟨TypeString, ""⟩),
   ("int", ⟨TypeInteger, "int32"⟩),
   ("int8", ⟨TypeInteger, "int32"⟩),
   ("int16", ⟨TypeInteger, "int32"⟩),
   ("int32", ⟨TypeInteger, "int32"⟩),
   ("integer", ⟨TypeInteger, "int32"⟩),
   ("int64", ⟨TypeInteger, "int64"⟩),
   ("uint", ⟨TypeInteger, "int32"⟩),
   ("uint8", ⟨TypeInteger, "int32"⟩),
   ("uint16", ⟨TypeInteger, "int32"⟩),
   ("uint32", ⟨TypeInteger, "int32"⟩),
   ("uint64", ⟨TypeInteger, "int64"⟩),
   ("float32", ⟨TypeNumber, "float"⟩),
   ("float", ⟨TypeNumber, "float"⟩),
   ("float64", ⟨TypeNumber, "double"⟩),
   ("double", ⟨TypeNumber, "double"⟩),
   ("number", ⟨TypeNumber, "double"⟩),
   ("bool", ⟨TypeBoolean, ""⟩),
   ("boolean", ⟨TypeBoolean, ""⟩),
   ("byte", ⟨TypeString, "byte"⟩),
   ("any", ⟨TypeObject, ""⟩),
   ("interface{}", ⟨TypeObject, ""⟩),
   ("object", ⟨TypeObject, ""⟩),
   ("array", ⟨TypeArray, ""⟩)]

/-- `typeToSchema`: table hit yields a type/format node, miss yields a
component reference. -/
def typeToSchema (typeName : String) : Schema :=
  match alookup typeSchemaMapping typeName with
  | some info => typeFormatSchema info.schemaType info.format
  | none => RefTo typeName

/-- `parseSchemaRef`: body/response schema token, recognising the `[]Name`
and `Name[]` array forms. -/
def parseSchemaRef (ref : String) : Schema :=
  if goHasPre ref "[]" then
    arraySchemaWith (some (RefTo (goTrimPre ref "[]")))
  else if goHasSuf ref "[]" then
    arraySchemaWith (some (RefTo (goTrimSuf ref "[]")))
  else
    RefTo ref

/-- The field/parameter type expressions the resolver distinguishes
(`go/ast` expression forms reaching `astTypeToSchema`). -/
inductive Expr where
  | ident (name : String) : Expr
  | star (x : Expr) : Expr
  | array (elt : Expr) : Expr
  | map (key value : Expr) : Expr
  | selector (x : Expr) (sel : String) : Expr
  | other : Expr
deriving DecidableEq, Repr

/-- `starExprToSchema`: pointer resolution; argument is the pointee
expression (`t.X`). -/
def starExprToSchema (x : Expr) : Schema :=
  match x with
  | .ident name => (typeToSchema name).setNullable true
  | _ => Schema.empty

/-- `extractArrayItemSchema`. -/
def extractArrayItemSchema (elt : Expr) : Option Schema :=
  match elt with
  | .ident name => some (typeToSchema name)
  | .star (.ident name) => some (typeToSchema name)
  | _ => none

/-- `arrayTypeToSchema`; argument is the element expression (`t.Elt`). -/
def arrayTypeToSchema (elt : Expr) : Schema :=
  arraySchemaWith (extractArrayItemSchema elt)

/-- `mapTypeToSchema`; arguments are the key and value expressions. -/
def mapTypeToSchema (_key value : Expr) : Schema :=
  match value with
  | .ident name =>
      .mk "" (NewSchemaType TypeObject) "" "" false none none (some (typeToSchema name)) [] []
  | _ => .mk "" (NewSchemaType TypeObject) "" "" false none none none [] []

/-- `selectorExprToSchema`; special-cases `time.Time` and `uuid.UUID`. -/
def selectorExprToSchema (x : Expr) (sel : String) : Schema :=
  match x with
  | .ident xname =>
      if xname = "time" ∧ sel = "Time" then typeFormatSchema TypeString "date-time"
      else if xname = "uuid" ∧ sel = "UUID" then typeFormatSchema TypeString "uuid"
      else Schema.empty
  | _ => Schema.empty

/-- `astTypeToSchema`: dispatch on the expression form. -/
def astTypeToSchema (expr : Expr) : Schema :=
  match expr with
  | .ident name => typeToSchema name
  | .star x => starExprToSchema x
  | .array elt => arrayTypeToSchema elt
  | .map k v => mapTypeToSchema k v
  | .selector x sel => selectorExprToSchema x sel
  | .other => Schema.empty

/-! ## OpenAPI document structures

Modelled from the parser's use sites (the corresponding `pkg/openapi`
declarations are not among the verified sources); Go zero values are the
field defaults. -/

/-- `openapi.Contact`. -/
structure Contact where
  Name : String := ""
  Email : String := ""
  URL : String := ""
deriving DecidableEq, Repr

/-- `openapi.License`. -/
structure License where
  Name : String := ""
  URL : String := ""
deriving DecidableEq, Repr

/-- `openapi.Info`. -/
structure Info where
  Title : String := ""
  Version : String := ""
  Description : String := ""
  TermsOfService : String := ""
  Contact : Option Contact := none
  License : Option License := none
deriving DecidableEq, Repr

/-- `openapi.Server`. -/
structure Server where
  URL : String := ""
  Description : String := ""
deriving DecidableEq, Repr

/-- `openapi.Tag`. -/
structure Tag where
  Name : String := ""
  Description : String := ""
deriving DecidableEq, Repr

/-- `openapi.ExternalDocumentation`. -/
structure ExternalDocumentation where
  URL : String := ""
  Description : String := ""
deriving DecidableEq, Repr

/-- `openapi.Parameter` (fields populated by `applyParamAnnotation`). -/
structure Parameter where
  Name : String := ""
  In : String := ""
  Description : String := ""
  Required : Bool := false
  Schema : Option Schema := none
  Example : Option Value := none

/-- `openapi.MediaType`. -/
structure MediaType where
  Schema : Option Schema := none

/-- `openapi.RequestBody`. -/
structure RequestBody where
  Description : String := ""
  Required : Bool := false
  Content : List (String × MediaType) := []

/-- `openapi.Response`. -/
structure Response where
  Description : String := ""
  Content : List (String × MediaType) := []

/-- `openapi.Responses`: status code → response. -/
abbrev Responses : Type := List (String × Response)

/-- `openapi.SecurityRequirement`: scheme name → scope list. -/
abbrev SecurityRequirement : Type := List (String × List String)

/-- `openapi.OAuthFlow`; `Scopes` is a nil-able Go map. -/
structure OAuthFlow where
  AuthorizationURL : String := ""
  TokenURL : String := ""
  Scopes : Option (List (String × String)) := none
deriving DecidableEq, Repr

/-- `openapi.OAuthFlows`. -/
structure OAuthFlows where
  Implicit : Option OAuthFlow := none
  Password : Option OAuthFlow := none
  ClientCredentials : Option OAuthFlow := none
  AuthorizationCode : Option OAuthFlow := none
deriving DecidableEq, Repr

/-- `openapi.SecurityScheme` (fields populated by `handleSecurity`). -/
structure SecurityScheme where
  type : String := ""
  Description : String := ""
  Name : String := ""
  In : String := ""
  Scheme : String := ""
  OpenIDConnectURL : String := ""
  Flows : Option OAuthFlows := none
deriving DecidableEq, Repr

/-- `openapi.Operation` (fields populated by `setPathOperation`). -/
structure Operation where
  OperationID : String := ""
  Summary : String := ""
  Description : String := ""
  Tags : List String := []
  Deprecated : Bool := false
  Parameters : List Parameter := []
  RequestBody : Option RequestBody := none
  Responses : List (String × Response) := []
  Security : List SecurityRequirement := []

/-- `openapi.PathItem` (the eight method slots `setPathOperation` writes). -/
structure PathItem where
  Get : Option Operation := none
  Post : Option Operation := none
  Put : Option Operation := none
  Delete : Option Operation := none
  Patch : Option Operation := none
  Options : Option Operation := none
  Head : Option Operation := none
  Trace : Option Operation := none

/-- `openapi.Components` (fields populated by `addComponents`). -/
structure Components where
  Schemas : List (String × Schema) := []
  SecuritySchemes : List (String × SecurityScheme) := []

/-- `openapi.Document` (fields populated by `generateDocument`). -/
structure Document where
  OpenAPI : String := ""
  Info : Info := {}
  Servers : List Server := []
  Tags : List Tag := []
  Paths : List (String × PathItem) := []
  Components : Option Components := none
  ExternalDocs : Option ExternalDocumentation := none

/-! ## Parsed annotation records

The annotation lexer is not among the verified sources.  Modelled from the
spec (§3: a tagged variant, one typed payload per annotation kind) and from
the walker's `Get*` call sites; each payload carries exactly the fields the
walker reads. -/

/-- Payload of a route annotation (`GetRoute`). -/
structure ParsedRoute where
  Method : String := ""
  Path : String := ""
  OperationID : String := ""
  Summary : String := ""
  Tags : List String := []
deriving DecidableEq, Repr

/-- Payload of a query/path/header parameter annotation (`GetParam`); `In`
is the location the lexer derives from the annotation kind. -/
structure ParsedParam where
  Name : String := ""
  In : String := ""
  type : String := ""
  Description : String := ""
  Required : Bool := false
  Default : String := ""
deriving DecidableEq, Repr

/-- Payload of a body annotation (`GetBody`). -/
structure ParsedBody where
  Schema : String := ""
  Description : String := ""
  Required : Bool := false
deriving DecidableEq, Repr

/-- Payload of a success/error response annotation (`GetResponse`). -/
structure ParsedResponse where
  Status : String := ""
  Schema : String := ""
  Description : String := ""
deriving DecidableEq, Repr

/-- Payload of a secure annotation (`GetSecure`). -/
structure ParsedSecure where
  Names : List String := []
deriving DecidableEq, Repr

/-- Payload of a scope annotation (`GetScope`). -/
structure ParsedScope where
  Security : String := ""
  Name : String := ""
  Description : String := ""
deriving DecidableEq, Repr

/-- Payload of a model annotation (`GetModel`). -/
structure ParsedModel where
  Description : String := ""
deriving DecidableEq, Repr

/-- Payload of a field annotation (`GetField`), the fields `applyFieldInfo`
reads. -/
structure ParsedField where
  Description : String := ""
  Example : String := ""
  Required : Bool := false
deriving DecidableEq, Repr

/-- An annotation record (`Annotation` with its `AnnotationType`
discriminant); `other` stands for the API-level kinds irrelevant to
operations (api/info/contact/license/server/tag/tos/security/externalDocs/
link), which `applyOperationAnnotation` ignores. -/
inductive Annotation where
  | route (r : ParsedRoute) : Annotation
  | query (p : ParsedParam) : Annotation
  | path (p : ParsedParam) : Annotation
  | header (p : ParsedParam) : Annotation
  | body (b : ParsedBody) : Annotation
  | ok (r : ParsedResponse) : Annotation
  | error (r : ParsedResponse) : Annotation
  | secure (s : ParsedSecure) : Annotation
  | scope (s : ParsedScope) : Annotation
  | model (m : ParsedModel) : Annotation
  | field (f : ParsedField) : Annotation
  | other : Annotation
deriving DecidableEq, Repr

/-! ## Parsed specification data (`internal/parser`) -/

/-- `OperationData`. -/
structure OperationData where
  Method : String := ""
  Path : String := ""
  OperationID : String := ""
  Summary : String := ""
  Description : String := ""
  Tags : List String := []
  Deprecated : Bool := false
  Parameters : List Parameter := []
  RequestBody : Option RequestBody := none
  Responses : List (String × Response) := []
  Security : List SecurityRequirement := []

/-- `SchemaData`. -/
structure SchemaData where
  Name : String := ""
  Description : String := ""
  Schema : Schema := Schema.empty
  Examples : List (String × Value) := []

/-- `LinkData`. -/
structure LinkData where
  Label : String := ""
  URL : String := ""
deriving DecidableEq, Repr

/-- `SpecData`. -/
structure SpecData where
  Version : String := ""
  Info : Info := {}
  Servers : List Server := []
  Tags : List Tag := []
  Operations : List OperationData := []
  Schemas : List (String × SchemaData) := []
  Securities : List (String × SecurityScheme) := []
  ExternalDocs : Option ExternalDocumentation := none
  Links : List LinkData := []

/-! ## Operation annotation folding (`parseFuncDecl` and helpers) -/

/-- `applyRouteAnnotation`. -/
def applyRouteAnnotation (op : OperationData) (route : ParsedRoute) : OperationData :=
  { op with
    Method := route.Method
    Path := route.Path
    OperationID := route.OperationID
    Summary := route.Summary
    Tags := route.Tags }

/-- `applyParamAnnotation`. -/
def applyParamAnnotation (op : OperationData) (param : ParsedParam) : OperationData :=
  { op with
    Parameters := op.Parameters ++
      [{ Name := param.Name
         In := param.In
         Description := param.Description
         Required := param.Required || param.In == "path"
         Schema := some (typeToSchema param.type)
         Example := parseDefaultValue param.Default }] }

/-- `applyBodyAnnotation`. -/
def applyBodyAnnotation (op : OperationData) (body : ParsedBody) : OperationData :=
  { op with
    RequestBody := some
      { Description := body.Description
        Required := body.Required
        Content := [("application/json", { Schema := some (parseSchemaRef body.Schema) })] } }

/-- `applyResponseAnnotation`. -/
def applyResponseAnnotation (op : OperationData) (resp : ParsedResponse) : OperationData :=
  let response : Response :=
    if resp.Schema ≠ "" ∧ resp.Schema ≠ "-" ∧ resp.Schema ≠ "nil" ∧ resp.Schema ≠ "none" then
      { Description := resp.Description
        Content := [("application/json", { Schema := some (parseSchemaRef resp.Schema) })] }
    else
      { Description := resp.Description }
  { op with Responses := ainsert op.Responses resp.Status response }

/-- `applySecureAnnotation`. -/
def applySecureAnnotation (op : OperationData) (secure : ParsedSecure) : OperationData :=
  { op with
    Security := op.Security ++
      secure.Names.map
        (fun name => ([(name, ([] : List String))] : SecurityRequirement)) }

/-- `applyOperationAnnotation`: dispatch on the annotation kind (annotations
of other kinds leave the record unchanged). -/
def applyOperationAnnotation (op : OperationData) (a : Annotation) : OperationData :=
  match a with
  | .route r => applyRouteAnnotation op r
  | .query p => applyParamAnnotation op p
  | .path p => applyParamAnnotation op p
  | .header p => applyParamAnnotation op p
  | .body b => applyBodyAnnotation op b
  | .ok r => applyResponseAnnotation op r
  | .error r => applyResponseAnnotation op r
  | .secure s => applySecureAnnotation op s
  | _ => op

/-- `parseOperationAnnotations`: fold the annotations into a fresh record;
discard it unless both method and path were set. -/
def parseOperationAnnotations (annotations : List Annotation) : Option OperationData :=
  let op := annotations.foldl applyOperationAnnotation {}
  if op.Method = "" ∨ op.Path = "" then none else some op

/-- `parseFuncDecl`, given the lexer's output for the declaration's doc
comment (a declaration without annotations contributes nothing). -/
def parseFuncDecl (spec : SpecData) (annotations : List Annotation) : SpecData :=
  if annotations.length = 0 then spec
  else
    match parseOperationAnnotations annotations with
    | some op => { spec with Operations := spec.Operations ++ [op] }
    | none => spec

/-! ## Scope handling (`handleScope`, `addScopeToFlow`) -/

/-- `addScopeToFlow`: no-op on a nil flow; otherwise inserts the scope into
the flow's scope map (allocating it when nil). -/
def addScopeToFlow (flow : Option OAuthFlow) (name description : String) : Option OAuthFlow :=
  match flow with
  | none => none
  | some f => some { f with Scopes := some (ainsert (f.Scopes.getD []) name description) }

/-- `handleScope`: look up the referenced scheme; silently drop the scope if
the scheme is unknown or has no flows object, otherwise add the scope to
every flow. -/
def handleScope (spec : SpecData) (scope : ParsedScope) : SpecData :=
  match alookup spec.Securities scope.Security with
  | none => spec
  | some scheme =>
      match scheme.Flows with
      | none => spec
      | some flows =>
          let flows' : OAuthFlows :=
            { Implicit := addScopeToFlow flows.Implicit scope.Name scope.Description
              Password := addScopeToFlow flows.Password scope.Name scope.Description
              ClientCredentials := addScopeToFlow flows.ClientCredentials scope.Name scope.Description
              AuthorizationCode := addScopeToFlow flows.AuthorizationCode scope.Name scope.Description }
          { spec with
            Securities := ainsert spec.Securities scope.Security { scheme with Flows := some flows' } }

/-! ## Structured-record (model) declarations (`parseTypeDecl` and helpers) -/

/-- A struct field as the walker sees it (`*ast.Field`): name list, the
captured `json:"…"` tag value (the regex capture, `none` when the field has
no such tag), raw doc/inline comment text, the declared type expression, and
the lexer's annotation records for the doc comment (the lexer itself is not
among the verified sources). -/
structure Field where
  Names : List String := []
  Tag : Option String := none
  Doc : Option String := none
  Comment : Option String := none
  type : Expr := Expr.other
  docAnns : List Annotation := []

/-- Split a character list at every occurrence of a separator character
(Go `strings.Split` with a one-character separator; empty parts kept). -/
def splitOnChar (sep : Char) : List Char → List (List Char)
  | [] => [[]]
  | c :: rest =>
      let r := splitOnChar sep rest
      if c = sep then [] :: r
      else
        match r with
        | h :: t => (c :: h) :: t
        | [] => [[c]]

/-- Go `strings.Split(s, ",")`. -/
def goSplitComma (s : String) : List String :=
  (splitOnChar ',' s.data).map (fun l => ⟨l⟩)

/-- `getJSONTagName`: first comma-separated part of the captured tag value;
empty when the field has no `json` tag. -/
def getJSONTagName (field : Field) : String :=
  match field.Tag with
  | none => ""
  | some t => (goSplitComma t).headD ""

/-- `getJSONTag`: the whole captured tag value. -/
def getJSONTag (field : Field) : String :=
  match field.Tag with
  | none => ""
  | some t => t

/-- `getFieldJSONName`: the name field annotations are matched by — empty
for anonymous fields and for the `-` exclusion sentinel, the declared name
when there is no tag. -/
def getFieldJSONName (field : Field) : String :=
  if field.Names.length = 0 then ""
  else
    let jsonName := getJSONTagName field
    if jsonName = "-" then ""
    else if jsonName = "" then field.Names.headD ""
    else jsonName

/-- `cleanDescription`: strip annotation lines from a comment text. -/
def cleanDescription (desc : String) : String :=
  let lines := desc.splitOn "\n"
  let cleanLines := lines.filter (fun line => !(line.trim.startsWith "!"))
  (String.intercalate "\n" cleanLines).trim

/-- `getFieldDescription`: doc comment first, then inline comment. -/
def getFieldDescription (field : Field) : String :=
  match field.Doc with
  | some d => cleanDescription d
  | none =>
      match field.Comment with
      | some c => cleanDescription c
      | none => ""

/-- `fieldToSchema`: resolve the field type; attach the comment text as the
description when the resolver left it empty. -/
def fieldToSchema (field : Field) : Schema :=
  let desc := getFieldDescription field
  let schema := astTypeToSchema field.type
  if desc ≠ "" ∧ schema.Description = "" then schema.setDescription desc else schema

/-- One iteration of the `structToSchema` field loop. -/
def structToSchemaStep (schema : Schema) (field : Field) : Schema :=
  if field.Names.length = 0 then schema
  else
    let fieldName := field.Names.headD ""
    let jsonName := getJSONTagName field
    if jsonName = "-" then schema
    else
      let jsonName := if jsonName = "" then fieldName else jsonName
      let fieldSchema := fieldToSchema field
      let schema := schema.setProperties (ainsert schema.Properties jsonName fieldSchema)
      if goContains (getJSONTag field) "omitempty" then schema
      else schema.setRequired (schema.Required ++ [jsonName])

/-- `structToSchema`: object schema from the declared fields. -/
def structToSchema (fields : List Field) : Schema :=
  fields.foldl structToSchemaStep
    (.mk "" (NewSchemaType TypeObject) "" "" false none none none [] [])

/-- `applyFieldInfo`: apply one `!field` annotation, matched by
serialization name; a name with no property is ignored. -/
def applyFieldInfo (jsonName : String) (fieldInfo : ParsedField) (schemaData : SchemaData) :
    SchemaData :=
  match alookup schemaData.Schema.Properties jsonName with
  | none => schemaData
  | some propSchema =>
      let propSchema := propSchema.setDescription fieldInfo.Description
      let propSchema :=
        if fieldInfo.Example ≠ "" then propSchema.setExample (some (parseValue fieldInfo.Example))
        else propSchema
      let schema :=
        schemaData.Schema.setProperties
          (ainsert schemaData.Schema.Properties jsonName propSchema)
      let schema :=
        if fieldInfo.Required && !(schema.Required.contains jsonName) then
          schema.setRequired (schema.Required ++ [jsonName])
        else schema
      { schemaData with Schema := schema }

/-- `applyFieldAnnotations`: a field without a doc comment gets none; the
`!field` records of its doc comment are applied in order. -/
def applyFieldAnnotations (field : Field) (jsonName : String) (schemaData : SchemaData) :
    SchemaData :=
  match field.Doc with
  | none => schemaData
  | some _ =>
      field.docAnns.foldl
        (fun sd a =>
          match a with
          | .field fi => applyFieldInfo jsonName fi sd
          | _ => sd)
        schemaData

/-- One iteration of the `parseStructFieldAnnotations` loop. -/
def parseStructFieldAnnotationsStep (schemaData : SchemaData) (field : Field) : SchemaData :=
  let jsonName := getFieldJSONName field
  if jsonName = "" then schemaData
  else applyFieldAnnotations field jsonName schemaData

/-- `parseStructFieldAnnotations`. -/
def parseStructFieldAnnotations (fields : List Field) (schemaData : SchemaData) : SchemaData :=
  fields.foldl parseStructFieldAnnotationsStep schemaData

/-- The `parseTypeDecl` work for one `!model`-annotated struct declaration:
build the base schema, stamp the model description on it, then apply the
per-field annotations.  (`parseTypeDecl` then stores the result in the
global schema collection keyed by the declared type name.) -/
def parseTypeDeclModel (name : String) (model : ParsedModel) (fields : List Field) :
    SchemaData :=
  let schemaData : SchemaData :=
    { Name := name
      Description := model.Description
      Schema := (structToSchema fields).setDescription model.Description
      Examples := [] }
  parseStructFieldAnnotations fields schemaData

/-! ## The spec assembler (`GetSpec`, `buildSchemas`, `addPaths`,
`setPathOperation`) -/

/-- The schema merge `GetSpec` performs: global (structured-record) schemas
are added to the explicit collection only under names not already present. -/
def GetSpecSchemas (schemas globalSchemas : List (String × SchemaData)) :
    List (String × SchemaData) :=
  globalSchemas.foldl
    (fun acc p => if (alookup acc p.1).isNone then ainsert acc p.1 p.2 else acc)
    schemas

/-- `GetSpec`: the parsed specification with global schemas merged. -/
def GetSpec (spec : SpecData) (globalSchemas : List (String × SchemaData)) : SpecData :=
  { spec with Schemas := GetSpecSchemas spec.Schemas globalSchemas }

/-- `buildSchemas`: the components schema table — the (already merged)
explicit collection first, then global entries under names still absent. -/
def buildSchemas (spec : SpecData) (globalSchemas : List (String × SchemaData)) :
    List (String × Schema) :=
  let schemas :=
    spec.Schemas.foldl (fun acc p => ainsert acc p.1 p.2.Schema) []
  globalSchemas.foldl
    (fun acc p => if (alookup acc p.1).isNone then ainsert acc p.1 p.2.Schema else acc)
    schemas

/-- The schema table of the assembled document's components block, as
`Generate` produces it (`GetSpec` merge followed by `buildSchemas`). -/
def componentSchemas (spec : SpecData) (globalSchemas : List (String × SchemaData)) :
    List (String × Schema) :=
  buildSchemas (GetSpec spec globalSchemas) globalSchemas

/-- The operation object `setPathOperation` builds from an
`OperationData`. -/
def buildOperation (op : OperationData) : Operation :=
  { OperationID := op.OperationID
    Summary := op.Summary
    Description := op.Description
    Tags := op.Tags
    Deprecated := op.Deprecated
    Parameters := op.Parameters
    RequestBody := op.RequestBody
    Responses := op.Responses
    Security := op.Security }

/-- `setPathOperation`: write the built operation into the method-specific
slot; an unrecognized method writes no slot. -/
def setPathOperation (pathItem : PathItem) (op : OperationData) : PathItem :=
  let operation := buildOperation op
  if op.Method = "GET" then { pathItem with Get := some operation }
  else if op.Method = "POST" then { pathItem with Post := some operation }
  else if op.Method = "PUT" then { pathItem with Put := some operation }
  else if op.Method = "DELETE" then { pathItem with Delete := some operation }
  else if op.Method = "PATCH" then { pathItem with Patch := some operation }
  else if op.Method = "OPTIONS" then { pathItem with Options := some operation }
  else if op.Method = "HEAD" then { pathItem with Head := some operation }
  else if op.Method = "TRACE" then { pathItem with Trace := some operation }
  else pathItem

/-- One iteration of the `addPaths` loop: find-or-create the path item,
write the method slot, store it back. -/
def addPathsStep (doc : Document) (op : OperationData) : Document :=
  let pathItem :=
    match alookup doc.Paths op.Path with
    | some pi => pi
    | none => {}
  { doc with Paths := ainsert doc.Paths op.Path (setPathOperation pathItem op) }

/-- `addPaths`: fold the ordered operation list into the paths table. -/
def addPaths (doc : Document) (operations : List OperationData) : Document :=
  operations.foldl addPathsStep doc

/-- The eight HTTP methods `setPathOperation` recognizes. -/
def httpMethods : List String :=
  ["GET", "POST", "PUT", "DELETE", "PATCH", "OPTIONS", "HEAD", "TRACE"]

/-- Observer: the operation stored in a path item's slot for a given
method string. -/
def getSlot (pathItem : PathItem) (method : String) : Option Operation :=
  if method = "GET" then pathItem.Get
  else if method = "POST" then pathItem.Post
  else if method = "PUT" then pathItem.Put
  else if method = "DELETE" then pathItem.Delete
  else if method = "PATCH" then pathItem.Patch
  else if method = "OPTIONS" then pathItem.Options
  else if method = "HEAD" then pathItem.Head
  else if method = "TRACE" then pathItem.Trace
  else none

/-- Observer: the operation a document holds at a path and method. -/
def slotAt (doc : Document) (path method : String) : Option Operation :=
  match alookup doc.Paths path with
  | some pi => getSlot pi method
  | none => none

/-! ## Claim C1 -/

/-- C1: the `OperationData` built by folding a routine declaration's
annotations is appended to `SpecState.Operations` if and only if both its
method and its path are non-empty after the fold; an operation lacking
either leaves the operation list unchanged. -/
theorem parseFuncDecl_appends_iff (spec : SpecData) (annotations : List Annotation) :
    (parseFuncDecl spec annotations).Operations =
      (if (annotations.foldl applyOperationAnnotation {}).Method ≠ "" ∧
          (annotations.foldl applyOperationAnnotation {}).Path ≠ "" then
        spec.Operations ++ [annotations.foldl applyOperationAnnotation {}]
      else spec.Operations) := by
  by_cases hlen : annotations.length = 0
  · rw [List.length_eq_zero] at hlen
    subst hlen
    simp [parseFuncDecl, parseOperationAnnotations]
  · by_cases h : (annotations.foldl applyOperationAnnotation {}).Method = "" ∨
        (annotations.foldl applyOperationAnnotation {}).Path = ""
    · have hcond : ¬((annotations.foldl applyOperationAnnotation {}).Method ≠ "" ∧
          (annotations.foldl applyOperationAnnotation {}).Path ≠ "") := by tauto
      simp [parseFuncDecl, parseOperationAnnotations, hlen, h, hcond]
    · have hcond : (annotations.foldl applyOperationAnnotation {}).Method ≠ "" ∧
          (annotations.foldl applyOperationAnnotation {}).Path ≠ "" := by tauto
      simp [parseFuncDecl, parseOperationAnnotations, hlen, h, hcond]

/-! ## Claim C7 -/

/-- C7: a query/path/header parameter annotation appends exactly one
parameter, whose `Required` field is the disjunction of the annotation's own
required flag and the location being `path` — so a path-location parameter
is always required. -/
theorem applyParamAnnotation_required (op : OperationData) (param : ParsedParam) :
    ∃ p : Parameter,
      OperationData.Parameters ( applyParamAnnotation op param) = op.Parameters ++ [p] ∧
      p.Required = (param.Required || param.In == "path") :=
  ⟨_, rfl, rfl⟩

/-! ## Claim C8 -/

/-- C8: a type name in the fixed primitive table resolves to a node carrying
exactly that entry's base type and format and no reference; a name outside
the table resolves to a reference node `#/components/schemas/<name>` with no
base type and no format. -/
theorem typeToSchema_table (name : String) :
    (∀ info : schemaTypeInfo, alookup typeSchemaMapping name = some info →
      (typeToSchema name).type = [info.schemaType] ∧
      (typeToSchema name).Format = info.format ∧
      (typeToSchema name).Ref = "") ∧
    (alookup typeSchemaMapping name = none →
      (typeToSchema name).Ref = "#/components/schemas/" ++ name ∧
      (typeToSchema name).type = [] ∧
      (typeToSchema name).Format = "") := by
  constructor
  · intro info h
    simp [typeToSchema, h, typeFormatSchema, NewSchemaType]
  · intro h
    simp [typeToSchema, h, RefTo]

/-- Witness for C8 at the table entry `int` and the model name `User`. -/
theorem typeToSchema_table_witness :
    (typeToSchema "int").type = ["integer"] ∧ (typeToSchema "int").Format = "int32" ∧
    (typeToSchema "int").Ref = "" ∧
    (typeToSchema "User").Ref = "#/components/schemas/" ++ "User" ∧
    (typeToSchema "User").type = [] := by
  have h1 := (typeToSchema_table "int").1 ⟨TypeInteger, "int32"⟩ (by rfl)
  have h2 := (typeToSchema_table "User").2 (by rfl)
  exact ⟨h1.1, h1.2.1, h1.2.2, h2.1, h2.2.1⟩

/-! ## Claim C9 -/

/-- The reference-node invariant of the claim, minus the nullable flag: a
node with a non-empty reference carries no base type, no format, no
properties and no required list. -/
def RefClean (s : Schema) : Prop :=
  s.Ref ≠ "" → s.type = [] ∧ s.Format = "" ∧ s.Properties = [] ∧ s.Required = []

/-- C9 fails as stated: resolving a pointer to the unrecognized type name
`User` yields a node carrying both a non-empty reference and the nullable
flag. -/
theorem starExpr_ref_with_nullable :
    (astTypeToSchema (Expr.star (Expr.ident "User"))).Ref ≠ "" ∧
    (astTypeToSchema (Expr.star (Expr.ident "User"))).Nullable = true := by
  constructor
  · decide
  · decide

/-- All the reference-cleanliness facts about one resolver output node: the
node itself, its items child and its additional-properties child are clean,
and it has no properties. -/
def CleanPack (s : Schema) : Prop :=
  RefClean s ∧ (∀ x, s.Items = some x → RefClean x) ∧
  (∀ x, s.AdditionalProperties = some x → RefClean x) ∧ s.Properties = []

theorem refClean_refTo (n : String) : RefClean (RefTo n) := by
  intro _
  simp [RefTo]

theorem cleanPack_empty : CleanPack Schema.empty := by
  refine ⟨fun h => absurd rfl h, ?_, ?_, rfl⟩ <;> intro x hx <;> simp [Schema.empty] at hx

theorem cleanPack_typeFormat (t f : String) : CleanPack (typeFormatSchema t f) := by
  refine ⟨fun h => absurd rfl h, ?_, ?_, rfl⟩ <;>
    intro x hx <;> simp [typeFormatSchema] at hx

theorem cleanPack_typeToSchema (n : String) : CleanPack (typeToSchema n) := by
  unfold typeToSchema
  cases alookup typeSchemaMapping n with
  | none =>
      refine ⟨refClean_refTo n, ?_, ?_, rfl⟩ <;> intro x hx <;> simp [RefTo] at hx
  | some info => exact cleanPack_typeFormat info.schemaType info.format

theorem cleanPack_setNullable (s : Schema) (b : Bool) (h : CleanPack s) :
    CleanPack (s.setNullable b) := by
  obtain ⟨h1, h2, h3, h4⟩ := h
  refine ⟨?_, ?_, ?_, by simpa using h4⟩
  · intro hr
    rw [Schema.Ref_setNullable] at hr
    obtain ⟨a, b', c, d⟩ := h1 hr
    simp [a, b', c, d]
  · intro x hx
    rw [Schema.Items_setNullable] at hx
    exact h2 x hx
  · intro x hx
    rw [Schema.AdditionalProperties_setNullable] at hx
    exact h3 x hx

/-- C9 amended: on every node the type resolver and the body/response schema
token resolver produce, a non-empty reference coexists with no base type, no
format, no properties and no required list (the nullable flag, however, may
accompany a reference on pointer-resolved nodes). -/
theorem resolver_ref_nodes_clean :
    (∀ e : Expr, CleanPack (astTypeToSchema e)) ∧
    (∀ r : String,
      RefClean (parseSchemaRef r) ∧
      (∀ s, (parseSchemaRef r).Items = some s → RefClean s)) := by
  constructor
  · intro e
    cases e with
    | ident n => exact cleanPack_typeToSchema n
    | star x =>
        cases x with
        | ident n => exact cleanPack_setNullable _ _ (cleanPack_typeToSchema n)
        | star y => exact cleanPack_empty
        | array elt => exact cleanPack_empty
        | map k v => exact cleanPack_empty
        | selector y sel => exact cleanPack_empty
        | other => exact cleanPack_empty
    | array elt =>
        refine ⟨fun h => absurd rfl h, ?_, ?_, rfl⟩
        · intro x hx
          simp only [astTypeToSchema, arrayTypeToSchema, arraySchemaWith, Schema.Items_mk] at hx
          cases elt with
          | ident n =>
              simp only [extractArrayItemSchema, Option.some.injEq] at hx
              exact hx ▸ (cleanPack_typeToSchema n).1
          | star y =>
              cases y with
              | ident n =>
                  simp only [extractArrayItemSchema, Option.some.injEq] at hx
                  exact hx ▸ (cleanPack_typeToSchema n).1
              | star z => simp [extractArrayItemSchema] at hx
              | array e2 => simp [extractArrayItemSchema] at hx
              | map k v => simp [extractArrayItemSchema] at hx
              | selector z sel => simp [extractArrayItemSchema] at hx
              | other => simp [extractArrayItemSchema] at hx
          | array e2 => simp [extractArrayItemSchema] at hx
          | map k v => simp [extractArrayItemSchema] at hx
          | selector y sel => simp [extractArrayItemSchema] at hx
          | other => simp [extractArrayItemSchema] at hx
        · intro x hx
          simp [astTypeToSchema, arrayTypeToSchema, arraySchemaWith] at hx
    | map k v =>
        cases v with
        | ident n =>
            refine ⟨fun h => absurd rfl h, ?_, ?_, rfl⟩
            · intro x hx
              simp [astTypeToSchema, mapTypeToSchema] at hx
            · intro x hx
              simp only [astTypeToSchema, mapTypeToSchema,
                Schema.AdditionalProperties_mk, Option.some.injEq] at hx
              exact hx ▸ (cleanPack_typeToSchema n).1
        | star y =>
            refine ⟨fun h => absurd rfl h, ?_, ?_, rfl⟩ <;>
              intro x hx <;> simp [astTypeToSchema, mapTypeToSchema] at hx
        | array e2 =>
            refine ⟨fun h => absurd rfl h, ?_, ?_, rfl⟩ <;>
              intro x hx <;> simp [astTypeToSchema, mapTypeToSchema] at hx
        | map k2 v2 =>
            refine ⟨fun h => absurd rfl h, ?_, ?_, rfl⟩ <;>
              intro x hx <;> simp [astTypeToSchema, mapTypeToSchema] at hx
        | selector y sel =>
            refine ⟨fun h => absurd rfl h, ?_, ?_, rfl⟩ <;>
              intro x hx <;> simp [astTypeToSchema, mapTypeToSchema] at hx
        | other =>
            refine ⟨fun h => absurd rfl h, ?_, ?_, rfl⟩ <;>
              intro x hx <;> simp [astTypeToSchema, mapTypeToSchema] at hx
    | selector x sel =>
        cases x with
        | ident xn =>
            show CleanPack (selectorExprToSchema (.ident xn) sel)
            simp only [selectorExprToSchema]
            split_ifs <;> first
              | exact cleanPack_typeFormat _ _
              | exact cleanPack_empty
        | star y => exact cleanPack_empty
        | array elt => exact cleanPack_empty
        | map k v => exact cleanPack_empty
        | selector y s2 => exact cleanPack_empty
        | other => exact cleanPack_empty
    | other => exact cleanPack_empty
  · intro r
    unfold parseSchemaRef
    split_ifs with h1 h2
    · refine ⟨fun h => absurd rfl h, ?_⟩
      intro x hx
      simp only [arraySchemaWith, Schema.Items_mk, Option.some.injEq] at hx
      exact hx ▸ refClean_refTo _
    · refine ⟨fun h => absurd rfl h, ?_⟩
      intro x hx
      simp only [arraySchemaWith, Schema.Items_mk, Option.some.injEq] at hx
      exact hx ▸ refClean_refTo _
    · refine ⟨refClean_refTo r, ?_⟩
      intro x hx
      simp [RefTo] at hx

/-- Witness for the amended C9 at a reference-producing identifier and an
array token. -/
theorem resolver_ref_nodes_clean_witness :
    (astTypeToSchema (Expr.ident "User")).type = [] ∧
    (astTypeToSchema (Expr.ident "User")).Required = [] ∧
    (RefTo "User").type = [] := by
  obtain ⟨h1, -, -, -⟩ := resolver_ref_nodes_clean.1 (Expr.ident "User")
  obtain ⟨a, -, -, d⟩ := h1 (by decide)
  have h2 := (resolver_ref_nodes_clean.2 "[]User").2 (RefTo "User") (by rfl) (by decide)
  exact ⟨a, d, h2.1⟩

/-! ## Claim C4 -/

/-- C4: a scope annotation naming an unknown scheme, or a scheme without a
flows object, leaves the spec state completely unchanged; when the named
scheme exists and has flows, the scope's name-to-description entry is
inserted into the scope map of every non-nil flow of that scheme. -/
theorem handleScope_spec (spec : SpecData) (scope : ParsedScope) :
    (alookup spec.Securities scope.Security = none → handleScope spec scope = spec) ∧
    (∀ scheme : SecurityScheme, alookup spec.Securities scope.Security = some scheme →
      scheme.Flows = none → handleScope spec scope = spec) ∧
    (∀ (scheme : SecurityScheme) (flows : OAuthFlows),
      alookup spec.Securities scope.Security = some scheme →
      scheme.Flows = some flows →
      ∃ flows' : OAuthFlows,
        alookup (handleScope spec scope).Securities scope.Security =
          some { scheme with Flows := some flows' } ∧
        (∀ f, flows.Implicit = some f → ∃ f', flows'.Implicit = some f' ∧
          alookup (f'.Scopes.getD []) scope.Name = some scope.Description) ∧
        (∀ f, flows.Password = some f → ∃ f', flows'.Password = some f' ∧
          alookup (f'.Scopes.getD []) scope.Name = some scope.Description) ∧
        (∀ f, flows.ClientCredentials = some f → ∃ f', flows'.ClientCredentials = some f' ∧
          alookup (f'.Scopes.getD []) scope.Name = some scope.Description) ∧
        (∀ f, flows.AuthorizationCode = some f → ∃ f', flows'.AuthorizationCode = some f' ∧
          alookup (f'.Scopes.getD []) scope.Name = some scope.Description) ∧
        (flows.Implicit = none → flows'.Implicit = none) ∧
        (flows.Password = none → flows'.Password = none) ∧
        (flows.ClientCredentials = none → flows'.ClientCredentials = none) ∧
        (flows.AuthorizationCode = none → flows'.AuthorizationCode = none)) := by
  refine ⟨?_, ?_, ?_⟩
  · intro h
    unfold handleScope
    simp only [h]
  · intro scheme hl hf
    unfold handleScope
    simp only [hl, hf]
  · intro scheme flows hl hf
    unfold handleScope
    simp only [hl, hf]
    refine ⟨{ Implicit := addScopeToFlow flows.Implicit scope.Name scope.Description
              Password := addScopeToFlow flows.Password scope.Name scope.Description
              ClientCredentials := addScopeToFlow flows.ClientCredentials scope.Name scope.Description
              AuthorizationCode := addScopeToFlow flows.AuthorizationCode scope.Name
                scope.Description },
          by simp, ?_, ?_, ?_, ?_, ?_, ?_, ?_, ?_⟩
    · intro f hff
      rw [hff]
      exact ⟨_, rfl, by simp [addScopeToFlow]⟩
    · intro f hff
      rw [hff]
      exact ⟨_, rfl, by simp [addScopeToFlow]⟩
    · intro f hff
      rw [hff]
      exact ⟨_, rfl, by simp [addScopeToFlow]⟩
    · intro f hff
      rw [hff]
      exact ⟨_, rfl, by simp [addScopeToFlow]⟩
    · intro hff
      simp [hff, addScopeToFlow]
    · intro hff
      simp [hff, addScopeToFlow]
    · intro hff
      simp [hff, addScopeToFlow]
    · intro hff
      simp [hff, addScopeToFlow]

/-- Witness for C4: an unknown scheme name is dropped, and a scope lands in
the implicit flow of a declared OAuth2 scheme. -/
theorem handleScope_spec_witness :
    (handleScope { Securities := [] } { Security := "oauth", Name := "read" } =
      { Securities := [] }) ∧
    (∃ flows' : OAuthFlows,
      alookup (handleScope
          { Securities :=
              [("oauth",
                { type := "oauth2",
                  Flows := some { Implicit := some { AuthorizationURL := "u" } } })] }
          { Security := "oauth", Name := "read", Description := "d" }).Securities "oauth" =
        some { type := "oauth2", Flows := some flows' } ∧
      (∀ f, ({ Implicit := some { AuthorizationURL := "u" } } : OAuthFlows).Implicit = some f →
        ∃ f', flows'.Implicit = some f' ∧
          alookup (f'.Scopes.getD []) "read" = some "d")) := by
  constructor
  · exact (handleScope_spec { Securities := [] } { Security := "oauth", Name := "read" }).1 rfl
  · obtain ⟨flows', h1, h2, -⟩ :=
      (handleScope_spec
        { Securities :=
            [("oauth",
              { type := "oauth2",
                Flows := some { Implicit := some { AuthorizationURL := "u" } } })] }
        { Security := "oauth", Name := "read", Description := "d" }).2.2
        { type := "oauth2", Flows := some { Implicit := some { AuthorizationURL := "u" } } }
        { Implicit := some { AuthorizationURL := "u" } } (by rfl) (by rfl)
    exact ⟨flows', h1, h2⟩

/-! ## Claim C2 -/

/-- First-of-two option combinator (for stating fold-lookup lemmas). -/
def ofirst {β : Type} (x y : Option β) : Option β :=
  match x with
  | some a => some a
  | none => y

@[simp] theorem ofirst_some {β : Type} (a : β) (y : Option β) : ofirst (some a) y = some a := rfl

@[simp] theorem ofirst_none {β : Type} (y : Option β) : ofirst none y = y := rfl

theorem alookup_eq_none_of_not_mem_keys {α : Type} (l : List (String × α)) (n : String)
    (h : n ∉ l.map Prod.fst) : alookup l n = none := by
  induction l with
  | nil => rfl
  | cons p rest ih =>
      obtain ⟨k, v⟩ := p
      simp only [List.map_cons, List.mem_cons] at h
      push_neg at h
      have hk : ¬k = n := fun hh => h.1 hh.symm
      simp [hk, ih h.2]

/-- Lookup after a guarded insert-if-absent fold: the accumulator wins, then
the folded list's first binding. -/
theorem alookup_guardedFold {α β : Type} (f : α → β) (g : List (String × α))
    (acc : List (String × β)) (n : String) :
    alookup
      (g.foldl (fun a p => if (alookup a p.1).isNone then ainsert a p.1 (f p.2) else a) acc) n
      = ofirst (alookup acc n) ((alookup g n).map f) := by
  induction g generalizing acc with
  | nil => cases h : alookup acc n <;> simp [ofirst, h]
  | cons p rest ih =>
      obtain ⟨k, v⟩ := p
      simp only [List.foldl_cons]
      cases hacc : alookup acc k with
      | none =>
          have hstep : (if (none : Option β).isNone = true then ainsert acc k (f v) else acc) =
              ainsert acc k (f v) := rfl
          rw [hstep, ih]
          by_cases hn : n = k
          · subst hn
            rw [alookup_ainsert_self, hacc]
            simp [ofirst]
          · rw [alookup_ainsert_ne _ _ _ _ hn]
            have hkn : ¬k = n := fun hh => hn hh.symm
            simp [hkn]
      | some w =>
          have hstep : (if (some w).isNone = true then ainsert acc k (f v) else acc) = acc := rfl
          rw [hstep, ih]
          by_cases hn : n = k
          · subst hn
            rw [hacc]
            simp [ofirst]
          · have hkn : ¬k = n := fun hh => hn hh.symm
            simp [hkn]

/-- Lookup after a plain insert fold over a list with distinct keys. -/
theorem alookup_mapFold {α β : Type} (f : α → β) (l : List (String × α))
    (acc : List (String × β)) (n : String) (hnodup : (l.map Prod.fst).Nodup) :
    alookup (l.foldl (fun a p => ainsert a p.1 (f p.2)) acc) n
      = ofirst ((alookup l n).map f) (alookup acc n) := by
  induction l generalizing acc with
  | nil => simp [ofirst]
  | cons p rest ih =>
      obtain ⟨k, v⟩ := p
      simp only [List.map_cons, List.nodup_cons] at hnodup
      simp only [List.foldl_cons]
      rw [ih _ hnodup.2]
      by_cases hn : n = k
      · subst hn
        rw [alookup_eq_none_of_not_mem_keys rest n hnodup.1]
        simp [ofirst]
      · have : ¬k = n := fun hh => hn hh.symm
        rw [alookup_ainsert_ne _ _ _ _ hn]
        simp [this]

/-- A guarded insert-if-absent fold keeps the key list duplicate-free. -/
theorem keys_nodup_guardedFold {α : Type} (g : List (String × α)) :
    ∀ acc : List (String × α), (acc.map Prod.fst).Nodup →
    (((g.foldl (fun a p => if (alookup a p.1).isNone then ainsert a p.1 p.2 else a) acc)).map
        Prod.fst).Nodup := by
  induction g with
  | nil => exact fun acc h => h
  | cons p rest ih =>
      intro acc h
      simp only [List.foldl_cons]
      by_cases hc : (alookup acc p.1).isNone = true
      · rw [if_pos hc]
        exact ih _ (keys_nodup_ainsert _ _ _ h)
      · rw [if_neg hc]
        exact ih _ h

/-- C2: in the assembled components schema table, a name present in the
explicit (file-scoped) collection maps to the explicit schema; a name absent
from it maps to the global (structured-record) schema when one exists —
explicit entries win every collision and globals never overwrite. -/
theorem componentSchemas_explicit_wins (spec : SpecData)
    (globals : List (String × SchemaData))
    (h : (spec.Schemas.map Prod.fst).Nodup) :
    (∀ n sd, alookup spec.Schemas n = some sd →
      alookup (componentSchemas spec globals) n = some sd.Schema) ∧
    (∀ n, alookup spec.Schemas n = none →
      alookup (componentSchemas spec globals) n =
        (alookup globals n).map SchemaData.Schema) := by
  have hmerged : ∀ n, alookup (GetSpecSchemas spec.Schemas globals) n =
      ofirst (alookup spec.Schemas n) (alookup globals n) := by
    intro n
    have := alookup_guardedFold (fun (sd : SchemaData) => sd) globals spec.Schemas n
    simpa [GetSpecSchemas, Option.map_id'] using this
  have hnodup2 : ((GetSpecSchemas spec.Schemas globals).map Prod.fst).Nodup := by
    unfold GetSpecSchemas
    exact keys_nodup_guardedFold globals spec.Schemas h
  have hmain : ∀ n, alookup (componentSchemas spec globals) n =
      ofirst (alookup ((GetSpecSchemas spec.Schemas globals).foldl
          (fun acc p => ainsert acc p.1 p.2.Schema) []) n)
        ((alookup globals n).map SchemaData.Schema) := by
    intro n
    unfold componentSchemas buildSchemas GetSpec
    exact alookup_guardedFold SchemaData.Schema globals _ n
  have hinner : ∀ n, alookup ((GetSpecSchemas spec.Schemas globals).foldl
      (fun acc p => ainsert acc p.1 p.2.Schema) []) n =
      (alookup (GetSpecSchemas spec.Schemas globals) n).map SchemaData.Schema := by
    intro n
    have := alookup_mapFold SchemaData.Schema (GetSpecSchemas spec.Schemas globals) [] n hnodup2
    cases hx : alookup (GetSpecSchemas spec.Schemas globals) n <;> simpa [hx, ofirst] using this
  constructor
  · intro n sd hsd
    rw [hmain, hinner, hmerged, hsd]
    simp [ofirst]
  · intro n hnone
    rw [hmain, hinner, hmerged, hnone]
    cases hg : alookup globals n <;> simp [ofirst, hg]

/-- Witness for C2: a collision name keeps its explicit schema, a
global-only name gets the global schema. -/
theorem componentSchemas_explicit_wins_witness :
    alookup
        (componentSchemas
          { Schemas := [("A", { Name := "A", Schema := RefTo "explicitA" })] }
          [("A", { Name := "A", Schema := RefTo "globalA" }),
           ("B", { Name := "B", Schema := RefTo "globalB" })]) "A" =
      some (RefTo "explicitA") ∧
    alookup
        (componentSchemas
          { Schemas := [("A", { Name := "A", Schema := RefTo "explicitA" })] }
          [("A", { Name := "A", Schema := RefTo "globalA" }),
           ("B", { Name := "B", Schema := RefTo "globalB" })]) "B" =
      some (RefTo "globalB") := by
  have h := componentSchemas_explicit_wins
    { Schemas := [("A", { Name := "A", Schema := RefTo "explicitA" })] }
    [("A", { Name := "A", Schema := RefTo "globalA" }),
     ("B", { Name := "B", Schema := RefTo "globalB" })]
    (by decide)
  refine ⟨h.1 "A" { Name := "A", Schema := RefTo "explicitA" } (by rfl), ?_⟩
  have h2 := h.2 "B" (by rfl)
  rw [h2]
  rfl

/-! ## Claim C3 -/

theorem getSlot_default (m : String) : getSlot {} m = none := by
  unfold getSlot
  split_ifs <;> rfl

theorem getSlot_setPathOperation_self (pi : PathItem) (op : OperationData)
    (h : op.Method ∈ httpMethods) :
    getSlot (setPathOperation pi op) op.Method = some (buildOperation op) := by
  simp only [httpMethods, List.mem_cons, List.not_mem_nil, or_false] at h
  rcases h with h | h | h | h | h | h | h | h <;>
    simp [setPathOperation, getSlot, h]

set_option maxHeartbeats 1600000 in
theorem getSlot_setPathOperation_ne (pi : PathItem) (op : OperationData) (m : String)
    (h : m ≠ op.Method) :
    getSlot (setPathOperation pi op) m = getSlot pi m := by
  simp only [setPathOperation]
  split_ifs with h1 h2 h3 h4 h5 h6 h7 h8 <;>
    (simp only [getSlot]
     try (split_ifs <;> try simp_all))

/-- C3: folding the operation list into the paths table, the last operation
written for a path+method determines that slot (so the later of two
same-path same-method operations silently overwrites the earlier one), and
the write leaves every other path or method slot unchanged. -/
theorem addPaths_last_write_wins (doc : Document) (ops : List OperationData)
    (op : OperationData) :
    (op.Method ∈ httpMethods →
      slotAt (addPaths doc (ops ++ [op])) op.Path op.Method = some (buildOperation op)) ∧
    (∀ p m, p ≠ op.Path ∨ m ≠ op.Method →
      slotAt (addPaths doc (ops ++ [op])) p m = slotAt (addPaths doc ops) p m) := by
  have hfold : addPaths doc (ops ++ [op]) = addPathsStep (addPaths doc ops) op := by
    unfold addPaths
    rw [List.foldl_append]
    rfl
  constructor
  · intro h
    rw [hfold]
    unfold addPathsStep slotAt
    simp only [alookup_ainsert_self]
    exact getSlot_setPathOperation_self _ _ h
  · intro p m hpm
    rw [hfold]
    unfold addPathsStep slotAt
    by_cases hp : p = op.Path
    · subst hp
      have hm : m ≠ op.Method := by tauto
      simp only [alookup_ainsert_self]
      cases hbase : alookup (addPaths doc ops).Paths op.Path with
      | some pi =>
          show getSlot (setPathOperation pi op) m = getSlot pi m
          exact getSlot_setPathOperation_ne _ _ _ hm
      | none =>
          show getSlot (setPathOperation {} op) m = none
          rw [getSlot_setPathOperation_ne _ _ _ hm, getSlot_default]
    · simp only [alookup_ainsert_ne _ _ _ _ hp]

/-- Witness for C3: two GET operations at `/items` — the later one occupies
the slot; a different path is untouched. -/
theorem addPaths_last_write_wins_witness :
    slotAt
        (addPaths {}
          [{ Method := "GET", Path := "/items", OperationID := "first" },
           { Method := "GET", Path := "/items", OperationID := "second" }])
        "/items" "GET" =
      some (buildOperation { Method := "GET", Path := "/items", OperationID := "second" }) ∧
    slotAt
        (addPaths {}
          [{ Method := "GET", Path := "/items", OperationID := "first" },
           { Method := "GET", Path := "/items", OperationID := "second" }])
        "/other" "GET" =
      slotAt
        (addPaths {} [{ Method := "GET", Path := "/items", OperationID := "first" }])
        "/other" "GET" := by
  have h := addPaths_last_write_wins {}
    [{ Method := "GET", Path := "/items", OperationID := "first" }]
    { Method := "GET", Path := "/items", OperationID := "second" }
  exact ⟨h.1 (by simp [httpMethods]), h.2 "/other" "GET" (Or.inl (by decide))⟩

/-! ## Claim C5 -/

theorem isPrefixOf_append_self (l t : List Char) : l.isPrefixOf (l ++ t) = true := by
  induction l with
  | nil => simp [List.isPrefixOf]
  | cons a as ih => simp [List.isPrefixOf, ih]

theorem goHasPre_append (s : String) : goHasPre ("[]" ++ s) "[]" = true := by
  unfold goHasPre
  rw [String.data_append]
  exact isPrefixOf_append_self _ _

theorem goTrimPre_append (s : String) : goTrimPre ("[]" ++ s) "[]" = s := by
  unfold goTrimPre
  rw [if_pos (goHasPre_append s), String.data_append, List.drop_left]

theorem isSuffixOf_append_self (l t : List Char) : l.isSuffixOf (t ++ l) = true := by
  unfold List.isSuffixOf
  rw [List.reverse_append]
  exact isPrefixOf_append_self _ _

theorem goHasSuf_append (s : String) : goHasSuf (s ++ "[]") "[]" = true := by
  unfold goHasSuf
  rw [String.data_append]
  exact isSuffixOf_append_self _ _

theorem goTrimSuf_append (s : String) : goTrimSuf (s ++ "[]") "[]" = s := by
  unfold goTrimSuf
  rw [if_pos (goHasSuf_append s), String.data_append, List.length_append,
    Nat.add_sub_cancel, List.take_left]

theorem goHasPre_of_no_bracket (s : String) (hne : s ≠ "") (hb : '[' ∉ s.data) :
    goHasPre (s ++ "[]") "[]" = false := by
  unfold goHasPre
  rw [String.data_append]
  have hd : s.data ≠ [] := by
    intro hd
    apply hne
    cases s with
    | mk d =>
        have hdd : d = [] := hd
        subst hdd
        rfl
  cases hs : s.data with
  | nil => exact absurd hs hd
  | cons c cs =>
      have hc : '[' ≠ c := by
        intro hc
        exact hb (hs ▸ hc ▸ List.mem_cons_self _ _)
      simp [List.isPrefixOf, hs, hc]

/-- C5: a body/response schema token in bracket-prefix form `[]Name` or
bracket-suffix form `Name[]` resolves to an array-type node whose items is a
reference `#/components/schemas/Name` to the stripped name — for any
identifier (non-empty, bracket-free), including names matching primitive
keywords. -/
theorem parseSchemaRef_array_forms (s : String) :
    parseSchemaRef ("[]" ++ s) = arraySchemaWith (some (RefTo s)) ∧
    (s ≠ "" → '[' ∉ s.data →
      parseSchemaRef (s ++ "[]") = arraySchemaWith (some (RefTo s))) := by
  constructor
  · unfold parseSchemaRef
    rw [if_pos (goHasPre_append s), goTrimPre_append]
  · intro hne hb
    unfold parseSchemaRef
    rw [if_neg (by rw [goHasPre_of_no_bracket s hne hb]; exact Bool.false_ne_true),
      if_pos (goHasSuf_append s), goTrimSuf_append]

/-- Witness for C5 at the primitive keyword `int`: both bracket forms yield
an array of references, never a primitive node. -/
theorem parseSchemaRef_array_forms_witness :
    parseSchemaRef ("[]" ++ "int") = arraySchemaWith (some (RefTo "int")) ∧
    parseSchemaRef ("int" ++ "[]") = arraySchemaWith (some (RefTo "int")) := by
  have h := parseSchemaRef_array_forms "int"
  exact ⟨h.1, h.2 (by decide) (by decide)⟩

/-! ## Claims C6 and C10 -/

theorem structToSchemaStep_skip_dash (schema : Schema) (f : Field)
    (h : getJSONTagName f = "-") : structToSchemaStep schema f = schema := by
  unfold structToSchemaStep
  by_cases hn : f.Names.length = 0
  · rw [if_pos hn]
  · rw [if_neg hn]
    simp [h]

theorem structToSchemaStep_skip_anon (schema : Schema) (f : Field)
    (h : f.Names = []) : structToSchemaStep schema f = schema := by
  unfold structToSchemaStep
  rw [if_pos (by simp [h])]

theorem getFieldJSONName_dash (f : Field) (h : getJSONTagName f = "-") :
    getFieldJSONName f = "" := by
  unfold getFieldJSONName
  by_cases hn : f.Names.length = 0
  · rw [if_pos hn]
  · rw [if_neg hn]
    simp [h]

theorem getFieldJSONName_anon (f : Field) (h : f.Names = []) :
    getFieldJSONName f = "" := by
  unfold getFieldJSONName
  rw [if_pos (by simp [h])]

theorem parseStructFieldAnnotationsStep_skip (sd : SchemaData) (f : Field)
    (h : getFieldJSONName f = "") : parseStructFieldAnnotationsStep sd f = sd := by
  unfold parseStructFieldAnnotationsStep
  simp [h]

/-- A fold ignores a middle element its step function skips. -/
theorem foldl_middle_skip {α β : Type} (step : α → β → α) (x : β)
    (hstep : ∀ a, step a x = a) (l1 l2 : List β) (init : α) :
    (l1 ++ x :: l2).foldl step init = (l1 ++ l2).foldl step init := by
  rw [List.foldl_append, List.foldl_append, List.foldl_cons, hstep]

/-- C6: a declared field whose serialization tag name is the exclusion
sentinel `-` contributes nothing to the model's schema record — removing it
changes neither the base schema nor the applied field annotations; and a
field with no serialization tag appears in the properties under its declared
Go name. -/
theorem model_dash_field_excluded (name : String) (m : ParsedModel)
    (fs1 fs2 : List Field) (f : Field) :
    (getJSONTagName f = "-" →
      parseTypeDeclModel name m (fs1 ++ f :: fs2) = parseTypeDeclModel name m (fs1 ++ fs2)) ∧
    (f.Tag = none → f.Names ≠ [] →
      alookup (structToSchema (fs1 ++ [f])).Properties (f.Names.headD "") =
        some (fieldToSchema f)) := by
  constructor
  · intro h
    unfold parseTypeDeclModel parseStructFieldAnnotations structToSchema
    rw [foldl_middle_skip structToSchemaStep f (fun a => structToSchemaStep_skip_dash a f h),
      foldl_middle_skip parseStructFieldAnnotationsStep f
        (fun a => parseStructFieldAnnotationsStep_skip a f (getFieldJSONName_dash f h))]
  · intro ht hn
    unfold structToSchema
    rw [List.foldl_append]
    simp only [List.foldl_cons, List.foldl_nil]
    unfold structToSchemaStep
    have hlen : ¬f.Names.length = 0 := by
      cases hfn : f.Names with
      | nil => exact absurd hfn hn
      | cons a l => simp [hfn]
    rw [if_neg hlen]
    have hjt : getJSONTagName f = "" := by simp [getJSONTagName, ht]
    by_cases hc : goContains (getJSONTag f) "omitempty" = true <;>
      simp [hjt, hc]

/-- Witness input for C6: a field excluded by the `-` tag. -/
def fieldDashW : Field := { Names := ["Secret"], Tag := some "-" }

/-- Witness input for C6: a tagless field. -/
def fieldNameW : Field := { Names := ["Name"], type := Expr.ident "string" }

/-- Witness for C6. -/
theorem model_dash_field_excluded_witness :
    parseTypeDeclModel "M" {} [fieldDashW] = parseTypeDeclModel "M" {} [] ∧
    alookup (structToSchema [fieldNameW]).Properties (fieldNameW.Names.headD "") =
      some (fieldToSchema fieldNameW) := by
  have h1 := (model_dash_field_excluded "M" {} [] [] fieldDashW).1 (by rfl)
  have h2 := (model_dash_field_excluded "M" {} [] [] fieldNameW).2 (by rfl)
    (by simp [fieldNameW])
  exact ⟨by simpa using h1, by simpa using h2⟩

/-- C10: a field with an empty name list (embedded/anonymous field) is
skipped entirely — removing it changes neither the base schema nor the
applied field annotations of the model's schema record. -/
theorem model_anonymous_field_skipped (name : String) (m : ParsedModel)
    (fs1 fs2 : List Field) (f : Field) (h : f.Names = []) :
    parseTypeDeclModel name m (fs1 ++ f :: fs2) = parseTypeDeclModel name m (fs1 ++ fs2) := by
  unfold parseTypeDeclModel parseStructFieldAnnotations structToSchema
  rw [foldl_middle_skip structToSchemaStep f (fun a => structToSchemaStep_skip_anon a f h),
    foldl_middle_skip parseStructFieldAnnotationsStep f
      (fun a => parseStructFieldAnnotationsStep_skip a f (getFieldJSONName_anon f h))]

/-- Witness input for C10: an anonymous (embedded) field. -/
def fieldAnonW : Field := { Names := [] }

/-- Witness for C10. -/
theorem model_anonymous_field_skipped_witness :
    parseTypeDeclModel "M" {} [fieldAnonW] = parseTypeDeclModel "M" {} [] := by
  have h := model_anonymous_field_skipped "M" {} [] [] fieldAnonW rfl
  simpa using h

end YaSwag
